import Mathlib

/-!
Shallow embedding of the JWKS-handling core of `aws-jwt-verify`:

* `src/jwk.ts` — JWK/JWKS validation (`assertIsJwk`, `assertIsJwks`),
  kid lookup (`findJwkInJwks`), the penalty box (`SimplePenaltyBox`) and
  the JWKS cache (`SimpleJwksCache`);
* the ALB verifier (`AlbJwtVerifier.verify` / `verifySync`,
  `validateAlbJwtFields`).

JSON values are modelled by an inductive `Json`; JavaScript objects are
association lists of string keys (JSON.parse yields distinct keys, so
first-match lookup agrees with JS field access).  Fallible TypeScript
functions (`throw`) become `Except`-valued functions over an inductive
error type mirroring the classes of `error.ts` (messages elided; only
the class matters for the properties below).  Stateful classes become
explicit state passing; the JS event loop (atomic synchronous prefixes
between `await`s, timers firing when due) is modelled by small step
functions, one per atomic segment of the source.
-/

/-- JSON values, as produced by `safeJsonParse` (safe-json-parse.ts). -/
inductive Json where
  | null : Json
  | bool : Bool → Json
  | num : Int → Json
  | str : String → Json
  | arr : List Json → Json
  | obj : List (String × Json) → Json

/-- Errors of `error.ts`, identified by class (messages elided). -/
inductive JwtError where
  | jwkValidationError
  | jwksValidationError
  | jwksNotAvailableInCacheError
  | kidNotFoundInJwksError
  | jwtWithoutValidKidError
  | waitPeriodNotYetEndedJwkError
  | fetchError
deriving DecidableEq, Repr

/-- JavaScript truthiness of a JSON value (`!v` in TS negates this). -/
def jsFalsy : Json → Bool
  | .null => true
  | .bool b => !b
  | .num n => n == 0
  | .str s => s == ""
  | .arr _ => false
  | .obj _ => false

/-- Embeds `isJsonObject` of safe-json-parse.ts: a non-null, non-array
object. -/
def isJsonObject : Json → Bool
  | .obj _ => true
  | _ => false

/-- JS field access `o[k]` on an object: `some v` when the key is an own
property, `none` (JS `undefined`) otherwise. -/
def jsGet (fields : List (String × Json)) (k : String) : Option Json :=
  (fields.find? (fun f => f.1 == k)).map (fun f => f.2)

/-- JS `k in o` / `Object.keys(o).includes(k)`. -/
def jsHas (fields : List (String × Json)) (k : String) : Bool :=
  (fields.find? (fun f => f.1 == k)).isSome

/-- The `optionalJwkFieldNames` list of jwk.ts. -/
def optionalJwkFieldNames : List String :=
  ["use", "alg", "kid", "n", "e", "x", "y", "crv"]

/-- The `mandatoryJwkFieldNames` list of jwk.ts. -/
def mandatoryJwkFieldNames : List String := ["kty"]

/-- JS `typeof o[k] === "string"`. -/
def fieldIsString (fields : List (String × Json)) (k : String) : Bool :=
  match jsGet fields k with
  | some (.str _) => true
  | _ => false

/-- The loop over `mandatoryJwkFieldNames` in `assertIsJwk`: each field
must be present with a string value. -/
def checkMandatoryJwkFields : List String → List (String × Json) → Except JwtError Unit
  | [], _ => .ok ()
  | f :: fs, o =>
    if fieldIsString o f then checkMandatoryJwkFields fs o
    else .error .jwkValidationError

/-- The loop over `optionalJwkFieldNames` in `assertIsJwk`: a field that
is present must hold a string value. -/
def checkOptionalJwkFields : List String → List (String × Json) → Except JwtError Unit
  | [], _ => .ok ()
  | f :: fs, o =>
    if jsHas o f && !(fieldIsString o f) then .error .jwkValidationError
    else checkOptionalJwkFields fs o

/-- Embeds `assertIsJwk` (jwk.ts lines 245-267). -/
def assertIsJwk (jwk : Json) : Except JwtError Unit :=
  if jsFalsy jwk then .error .jwkValidationError
  else if !(isJsonObject jwk) then .error .jwkValidationError
  else
    match jwk with
    | .obj o =>
      match checkMandatoryJwkFields mandatoryJwkFieldNames o with
      | .error e => .error e
      | .ok _ => checkOptionalJwkFields optionalJwkFieldNames o
    | _ => .error .jwkValidationError

/-- The loop over `jwks.keys` in `assertIsJwks`: every element must be a
valid JWK; the first failure propagates. -/
def checkAllJwks : List Json → Except JwtError Unit
  | [] => .ok ()
  | k :: ks =>
    match assertIsJwk k with
    | .error e => .error e
    | .ok _ => checkAllJwks ks

/-- Embeds `assertIsJwks` (jwk.ts lines 160-176). -/
def assertIsJwks (jwks : Json) : Except JwtError Unit :=
  if jsFalsy jwks then .error .jwksValidationError
  else if !(isJsonObject jwks) then .error .jwksValidationError
  else
    match jwks with
    | .obj o =>
      if !(jsHas o "keys") then .error .jwksValidationError
      else
        match jsGet o "keys" with
        | some (.arr ks) => checkAllJwks ks
        | _ => .error .jwksValidationError
    | _ => .error .jwksValidationError

/-- Lookup in a JS `Map` (`Map.get`): keys are unique in a JS Map, so
plain first-match lookup is exact. -/
def mapGet {κ α : Type} [DecidableEq κ] (m : List (κ × α)) (k : κ) : Option α :=
  match m with
  | [] => none
  | e :: rest => if e.1 = k then some e.2 else mapGet rest k

/-- JS `Map.set`: replace the entry in place, or append a new one. -/
def mapSet {κ α : Type} [DecidableEq κ] (m : List (κ × α)) (k : κ) (v : α) :
    List (κ × α) :=
  match m with
  | [] => [(k, v)]
  | e :: rest => if e.1 = k then (k, v) :: rest else e :: mapSet rest k v

/-- JS `Map.delete`. -/
def mapDelete {κ α : Type} [DecidableEq κ] (m : List (κ × α)) (k : κ) :
    List (κ × α) :=
  match m with
  | [] => []
  | e :: rest => if e.1 = k then mapDelete rest k else e :: mapDelete rest k

/-- One scheduled back-off timer of `SimplePenaltyBox` (the callback,
which deletes the timer's URI from `waitingUris`, is fixed by the source
of `registerFailedAttempt`, so only id, URI and due time are recorded).
Ids start at 1, so the JS truthiness test `if (i)` in `release` always
passes for a found entry. -/
structure PBTimer where
  id : Nat
  uri : String
  fireAt : Nat
deriving DecidableEq, Repr

/-- State of a `SimplePenaltyBox` (jwk.ts lines 295-329): the
`waitingUris` map (URI to timer id) plus the set of scheduled timers.
`nodeWebCompat.setTimeoutUnref` is plain `setTimeout` scheduling (unref
only affects process lifetime), modelled by the `timers` list together
with `advanceTo` below. Times are in milliseconds. -/
structure SimplePenaltyBox where
  waitSeconds : Nat
  nextTimerId : Nat
  waitingUris : List (String × Nat)
  timers : List PBTimer
deriving DecidableEq, Repr

/-- Embeds `SimplePenaltyBox.wait` (jwk.ts lines 304-312): it does not
block; it throws `WaitPeriodNotYetEndedJwkError` exactly when the URI is
in `waitingUris`. The `kid` argument of the `PenaltyBox` interface is
not even declared by the implementation. -/
def SimplePenaltyBox.wait (s : SimplePenaltyBox) (jwksUri : String) (_kid : String) :
    Except JwtError Unit :=
  if (mapGet s.waitingUris jwksUri).isSome then
    .error .waitPeriodNotYetEndedJwkError
  else .ok ()

/-- Embeds `SimplePenaltyBox.release` (jwk.ts lines 313-319):
`clearTimeout` on the stored timer id and removal from `waitingUris`.
Timer ids are ≥ 1, so `if (i)` is the `isSome` test. -/
def SimplePenaltyBox.release (s : SimplePenaltyBox) (jwksUri : String) :
    SimplePenaltyBox :=
  match mapGet s.waitingUris jwksUri with
  | some i =>
    { s with timers := s.timers.filter (fun t => !(t.id == i)),
             waitingUris := mapDelete s.waitingUris jwksUri }
  | none => s

/-- Embeds `SimplePenaltyBox.registerFailedAttempt` (jwk.ts lines
320-325): schedule a fresh timer that will delete the URI after
`waitSeconds * 1000` ms, and overwrite the `waitingUris` entry with the
new timer's id. Note the previously stored timer (if any) is NOT
cleared. -/
def SimplePenaltyBox.registerFailedAttempt (s : SimplePenaltyBox) (now : Nat)
    (jwksUri : String) (_kid : String) : SimplePenaltyBox :=
  { s with nextTimerId := s.nextTimerId + 1,
           timers := s.timers ++ [⟨s.nextTimerId, jwksUri, now + s.waitSeconds * 1000⟩],
           waitingUris := mapSet s.waitingUris jwksUri s.nextTimerId }

/-- Embeds `SimplePenaltyBox.registerSuccessfulAttempt` (jwk.ts lines
326-328): it just releases the URI. -/
def SimplePenaltyBox.registerSuccessfulAttempt (s : SimplePenaltyBox)
    (jwksUri : String) (_kid : String) : SimplePenaltyBox :=
  s.release jwksUri

/-- Runs every timer that is due at wall-clock time `t`: each due
timer's callback deletes its URI from `waitingUris` (jwk.ts lines
321-323) and the timer leaves the schedule. Since all callbacks are
unconditional deletes, their firing order is irrelevant to the final
state. -/
def SimplePenaltyBox.advanceTo (s : SimplePenaltyBox) (t : Nat) : SimplePenaltyBox :=
  let due := s.timers.filter (fun tm => decide (tm.fireAt ≤ t))
  { s with timers := s.timers.filter (fun tm => !(decide (tm.fireAt ≤ t))),
           waitingUris := s.waitingUris.filter
             (fun e => !(due.any (fun tm => tm.uri == e.1))) }

/-- The `DecomposedJwt` interface of jwk.ts, restricted to the one
header field the cache inspects: `header.kid`, a JSON value when
present (`none` is JS `undefined`, i.e. an absent claim). -/
structure DecomposedJwt where
  headerKid : Option Json

/-- The `Jwks` type of jwk.ts: an object holding `keys`, an ordered
list of JWKs (arbitrary JSON objects once validated). -/
structure Jwks where
  keys : List Json

/-- The predicate of `findJwkInJwks` (jwk.ts line 94):
`jwk.kid != null && jwk.kid === kid`. Loose `!= null` excludes absent
and null; strict `===` against a string holds only for an equal
string. -/
def jwkKidMatches (jwk : Json) (kid : String) : Bool :=
  match jwk with
  | .obj o =>
    match jsGet o "kid" with
    | some (.str s) => s == kid
    | _ => false
  | _ => false

/-- The `kid` field of a JWK object, when present. -/
def jwkKid (jwk : Json) : Option Json :=
  match jwk with
  | .obj o => jsGet o "kid"
  | _ => none

/-- Embeds `findJwkInJwks` (jwk.ts lines 92-96): first JWK in the set
whose `kid` matches. -/
def findJwkInJwks (jwks : Jwks) (kid : String) : Option Json :=
  jwks.keys.find? (fun jwk => jwkKidMatches jwk kid)

/-- Observable interactions of one `SimpleJwksCache` call with its
collaborators: the penalty box and the fetcher. -/
inductive CacheEvent where
  | penaltyBoxWait (uri kid : String)
  | fetch (uri : String)
  | registerFailedAttempt (uri kid : String)
  | registerSuccessfulAttempt (uri kid : String)
deriving DecidableEq, Repr

/-- The `jwksCache` map of `SimpleJwksCache` (jwk.ts line 335). The
`fetchingJwks` map only matters across concurrent callers and is
modelled by `FlightState` below. -/
structure CacheState where
  jwksCache : List (String × Jwks)

/-- Sequential projection of `SimpleJwksCache.getJwks` (jwk.ts lines
364-379) for a single caller with no fetch pending: the fetcher+parser
outcome is the `fetchRes` oracle; on success the fresh JWKS replaces
the cached one, on failure the cache is untouched. The pending-entry
bookkeeping (set, then delete in the `finally`) nets to no change for a
lone caller and is modelled explicitly by the single-flight machine
below. -/
def getJwksSeq (fetchRes : Except JwtError Jwks) (s : CacheState) (uri : String) :
    Except JwtError Jwks × List CacheEvent × CacheState :=
  match fetchRes with
  | .error e => (.error e, [.fetch uri], s)
  | .ok jwks => (.ok jwks, [.fetch uri],
      { jwksCache := mapSet s.jwksCache uri jwks })

/-- The cached-JWK probe of `getJwk` (jwk.ts lines 432-439):
`jwksCache.get(uri)` (a `Jwks` object is always truthy) followed by
`findJwkInJwks`. -/
def cachedJwkLookup (s : CacheState) (uri : String) (kid : String) : Option Json :=
  (mapGet s.jwksCache uri).bind (fun jwks => findJwkInJwks jwks kid)

/-- Embeds `SimpleJwksCache.getJwk` (jwk.ts lines 422-465). The penalty
box is abstracted by the oracle `pbWaitFails` (`wait` resolves or
throws `WaitPeriodNotYetEndedJwkError`); the fetch by `fetchRes`. The
event list records, in order, every interaction with the penalty box
and the fetcher. -/
def getJwk (pbWaitFails : String → String → Bool) (fetchRes : Except JwtError Jwks)
    (s : CacheState) (uri : String) (jwt : DecomposedJwt) :
    Except JwtError Json × List CacheEvent × CacheState :=
  match jwt.headerKid with
  | some (.str kid) =>
    match cachedJwkLookup s uri kid with
    | some jwk => (.ok jwk, [], s)
    | none =>
      if pbWaitFails uri kid then
        (.error .waitPeriodNotYetEndedJwkError, [.penaltyBoxWait uri kid], s)
      else
        match getJwksSeq fetchRes s uri with
        | (.error e, evs, s1) => (.error e, .penaltyBoxWait uri kid :: evs, s1)
        | (.ok jwks, evs, s1) =>
          match findJwkInJwks jwks kid with
          | none =>
            (.error .kidNotFoundInJwksError,
             (.penaltyBoxWait uri kid :: evs) ++ [.registerFailedAttempt uri kid], s1)
          | some jwk =>
            (.ok jwk,
             (.penaltyBoxWait uri kid :: evs) ++ [.registerSuccessfulAttempt uri kid], s1)
  | _ => (.error .jwtWithoutValidKidError, [], s)

/-- Embeds `SimpleJwksCache.getCachedJwk` (jwk.ts lines 388-412): the
kid-type check comes first in the source, then cache presence, then the
kid lookup; it emits no events (it never fetches nor touches the
penalty box) and leaves the state unchanged. -/
def getCachedJwk (s : CacheState) (uri : String) (jwt : DecomposedJwt) :
    Except JwtError Json × List CacheEvent × CacheState :=
  match jwt.headerKid with
  | some (.str kid) =>
    match mapGet s.jwksCache uri with
    | none => (.error .jwksNotAvailableInCacheError, [], s)
    | some jwks =>
      match findJwkInJwks jwks kid with
      | none => (.error .kidNotFoundInJwksError, [], s)
      | some jwk => (.ok jwk, [], s)
  | _ => (.error .jwtWithoutValidKidError, [], s)

/-- State of the single-flight machine for `SimpleJwksCache.getJwks`
(jwk.ts lines 364-379) under the JS event loop: promises are numbered;
`fetchingJwks` maps a URI to its pending promise; `fetchLog` records
each invocation of `fetcher.fetch`; `settled` records the result each
promise settled with (what every caller awaiting it observes). -/
structure FlightState where
  jwksCache : List (String × Jwks)
  fetchingJwks : List (String × Nat)
  nextPromiseId : Nat
  fetchLog : List String
  settled : List (Nat × Except JwtError Jwks)

/-- The synchronous prefix of one `getJwks(uri)` call (jwk.ts lines
365-370), which the event loop runs atomically (no `await` inside): if
a fetch is pending, return that promise (caller is not the owner);
otherwise invoke the fetcher, register the new promise in
`fetchingJwks`, and await it as owner. Returns the promise the caller
awaits and whether it owns the flight. -/
def startGetJwks (uri : String) (s : FlightState) : FlightState × Nat × Bool :=
  match mapGet s.fetchingJwks uri with
  | some p => (s, p, false)
  | none =>
    ({ s with nextPromiseId := s.nextPromiseId + 1,
              fetchLog := s.fetchLog ++ [uri],
              fetchingJwks := mapSet s.fetchingJwks uri s.nextPromiseId },
     s.nextPromiseId, true)

/-- Runs the synchronous prefixes of `n` concurrent `getJwks(uri)`
calls. The prefixes are atomic and identical, so any event-loop
interleaving of the callers is some sequential order of these
prefixes. Returns the promise and ownership of each caller in order. -/
def startGetJwksN : Nat → String → FlightState → FlightState × List (Nat × Bool)
  | 0, _, s => (s, [])
  | n + 1, uri, s =>
    let r := startGetJwks uri s
    let rest := startGetJwksN n uri r.1
    (rest.1, (r.2.1, r.2.2) :: rest.2)

/-- Settlement of the flight's promise `p` with result `res`, together
with the owner's continuation (jwk.ts lines 371-378): the `finally`
removes the pending entry whatever the outcome; only on success is the
cache updated. Every caller awaiting `p` observes `res`. -/
def settleGetJwks (uri : String) (p : Nat) (res : Except JwtError Jwks)
    (s : FlightState) : FlightState :=
  let s1 := { s with fetchingJwks := mapDelete s.fetchingJwks uri,
                     settled := mapSet s.settled p res }
  match res with
  | .ok jwks => { s1 with jwksCache := mapSet s1.jwksCache uri jwks }
  | .error _ => s1

/-- Decomposed ALB JWT, restricted to what `AlbJwtVerifier` inspects
after signature verification: the `signer` and `client` header claims
(a string when present) and the payload (opaque stand-in). -/
structure AlbDecomposedJwt where
  signer : Option String
  client : Option String
  payload : String
deriving DecidableEq, Repr

/-- Error classes reachable from the ALB verification path (error.ts is
not part of src; classes per the spec's error taxonomy). -/
inductive AlbErrorKind where
  | jwtInvalidSignature
  | jwtInvalidClaim
  | parameterValidation
deriving DecidableEq, Repr

/-- A thrown error object: its class and its `rawJwt` property (set
only by `withRawJwt`). -/
structure AlbError where
  kind : AlbErrorKind
  rawJwt : Option AlbDecomposedJwt
deriving DecidableEq, Repr

/-- Embeds `JwtInvalidClaimError.withRawJwt`: stores the decomposed JWT
on the error and rethrows it. -/
def AlbError.withRawJwt (e : AlbError) (jwt : AlbDecomposedJwt) : AlbError :=
  { e with rawJwt := some jwt }

/-- The `err instanceof JwtInvalidClaimError` test. -/
def AlbError.isJwtInvalidClaimError (e : AlbError) : Bool :=
  e.kind == .jwtInvalidClaim

/-- The `albArn` / `clientId` option values: `string | string[] | null
| undefined`. -/
inductive AlbParam where
  | undef
  | null
  | str (s : String)
  | arr (l : List String)
deriving DecidableEq, Repr

/-- A single string is treated as the one-element list (the
wrap-to-array step of list semantics). -/
def AlbParam.toList : AlbParam → List String
  | .str s => [s]
  | .arr l => l
  | _ => []

/-- Modelled from the spec: `assertStringArrayContainsString` lives in
assert.ts, which is not part of src. Per the spec's list semantics
(§8.7) the claim value must be a string contained in the expected list,
and per §9 open question (i) ALB claim-check failures surface as
`JwtInvalidClaimError`; a freshly thrown error carries no `rawJwt`. -/
def assertStringArrayContainsString (value : Option String) (expected : List String) :
    Except AlbError Unit :=
  match value with
  | some s => if expected.contains s then .ok () else .error ⟨.jwtInvalidClaim, none⟩
  | none => .error ⟨.jwtInvalidClaim, none⟩

/-- The first block of `validateAlbJwtFields` (part_000 lines 238-251):
check the `signer` header against `albArn`; `null` disables the check,
`undefined` is a `ParameterValidationError`. -/
def checkAlbArn (jwt : AlbDecomposedJwt) (albArn : AlbParam) : Except AlbError Unit :=
  match albArn with
  | .null => .ok ()
  | .undef => .error ⟨.parameterValidation, none⟩
  | a => assertStringArrayContainsString jwt.signer a.toList

/-- The second block of `validateAlbJwtFields` (part_000 lines 252-265):
check the `client` header against `clientId`, same shape. -/
def checkAlbClientId (jwt : AlbDecomposedJwt) (clientId : AlbParam) :
    Except AlbError Unit :=
  match clientId with
  | .null => .ok ()
  | .undef => .error ⟨.parameterValidation, none⟩
  | c => assertStringArrayContainsString jwt.client c.toList

/-- Embeds `validateAlbJwtFields` (part_000 lines 231-266): the signer
check runs first; its failure propagates before the client check
runs. -/
def validateAlbJwtFields (jwt : AlbDecomposedJwt) (albArn clientId : AlbParam) :
    Except AlbError Unit :=
  match checkAlbArn jwt albArn with
  | .error e => .error e
  | .ok _ => checkAlbClientId jwt clientId

/-- Modelled from the spec: `JwtVerifierBase.verifyDecomposedJwt` and
`verifyDecomposedJwtSync` live in jwt-verifier.ts, which is not part of
src. Per spec §4.8 steps 4-6 they resolve the JWK and verify the
signature; a signature failure raises `JwtInvalidSignatureError`, and
per §4.8 step 7 a signature failure never carries `rawJwt`. The Boolean
oracle `sigOk` abstracts the cryptographic outcome. -/
def verifyDecomposedJwtSpec (sigOk : Bool) : Except AlbError Unit :=
  if sigOk then .ok () else .error ⟨.jwtInvalidSignature, none⟩

/-- Embeds `AlbJwtVerifier.verify` and `AlbJwtVerifier.verifySync`
(part_000 lines 181-199 and 210-228, identical but for `await`):
signature verification first, then `validateAlbJwtFields` wrapped in
the catch that attaches the raw JWT exactly when
`includeRawJwtInErrors` is set and the error is a
`JwtInvalidClaimError`. -/
def albVerify (sigOk : Bool) (jwt : AlbDecomposedJwt) (albArn clientId : AlbParam)
    (includeRawJwtInErrors : Bool) : Except AlbError String :=
  match verifyDecomposedJwtSpec sigOk with
  | .error e => .error e
  | .ok _ =>
    match validateAlbJwtFields jwt albArn clientId with
    | .error err =>
      if includeRawJwtInErrors && err.isJwtInvalidClaimError then
        .error (err.withRawJwt jwt)
      else .error err
    | .ok _ => .ok jwt.payload

/-- A fresh penalty box with the default 10-second wait period. -/
def spbClean : SimplePenaltyBox :=
  { waitSeconds := 10, nextTimerId := 1, waitingUris := [], timers := [] }

/-- Field list of the sample RSA JWK with kid `k1`. -/
def jwkAFields : List (String × Json) :=
  [("kty", .str "RSA"), ("kid", .str "k1"), ("n", .str "mod1"), ("e", .str "AQAB")]

/-- Sample RSA JWK with kid `k1`. -/
def jwkA : Json := .obj jwkAFields

/-- Sample JWKS holding `jwkA`. -/
def jwksA : Jwks := ⟨[jwkA]⟩

/-- Sample JWKS URI. -/
def uriA : String := "https://idp.example/jwks.json"

/-- Cache already holding `jwksA` under `uriA`. -/
def cacheA : CacheState := ⟨[(uriA, jwksA)]⟩

/-- Decomposed JWT whose header kid is `k1`. -/
def jwtA : DecomposedJwt := ⟨some (.str "k1")⟩

/-- Decomposed JWT with no kid claim at all. -/
def jwtNoKid : DecomposedJwt := ⟨none⟩

/-- An empty JWKS cache. -/
def emptyCache : CacheState := ⟨[]⟩

/-- A JWK whose kid is the empty string. -/
def jwkEmptyKid : Json := .obj [("kty", .str "RSA"), ("kid", .str "")]

/-- JWKS holding only `jwkEmptyKid`. -/
def jwksEmptyKid : Jwks := ⟨[jwkEmptyKid]⟩

/-- Cache holding `jwksEmptyKid` under `uriA`. -/
def cacheEmptyKid : CacheState := ⟨[(uriA, jwksEmptyKid)]⟩

/-- Decomposed JWT whose header kid is the empty string. -/
def jwtEmptyKid : DecomposedJwt := ⟨some (.str "")⟩

/-- A fresh single-flight state: nothing cached, nothing pending. -/
def flightFresh : FlightState :=
  { jwksCache := [], fetchingJwks := [], nextPromiseId := 0, fetchLog := [], settled := [] }

/-- ALB JWT whose signer does not match the ARN configured below. -/
def albJwt0 : AlbDecomposedJwt :=
  ⟨some "arn:aws:elasticloadbalancing:other", some "client-xyz", "payload0"⟩

/-- The claim error `albJwt0` produces with `includeRawJwtInErrors`. -/
def albErr0 : AlbError := ⟨.jwtInvalidClaim, some albJwt0⟩

theorem mapGet_set_self {κ α : Type} [DecidableEq κ] (m : List (κ × α)) (k : κ) (v : α) :
    mapGet (mapSet m k v) k = some v := by
  induction m with
  | nil => simp [mapSet, mapGet]
  | cons e rest ih =>
    by_cases h : e.1 = k
    · simp [mapSet, h, mapGet]
    · simp [mapSet, h, mapGet, ih]

theorem mapGet_set_ne {κ α : Type} [DecidableEq κ] (m : List (κ × α)) (k k' : κ) (v : α)
    (h : k' ≠ k) : mapGet (mapSet m k v) k' = mapGet m k' := by
  have hkk : ¬(k = k') := fun hh => h hh.symm
  induction m with
  | nil => simp [mapSet, mapGet, hkk]
  | cons e rest ih =>
    by_cases he : e.1 = k
    · simp [mapSet, he, mapGet, hkk]
    · simp [mapSet, he, mapGet, ih]

theorem mapGet_delete_self {κ α : Type} [DecidableEq κ] (m : List (κ × α)) (k : κ) :
    mapGet (mapDelete m k) k = none := by
  induction m with
  | nil => simp [mapDelete, mapGet]
  | cons e rest ih =>
    by_cases h : e.1 = k
    · simp [mapDelete, h, ih]
    · simp [mapDelete, h, mapGet, ih]

theorem mapGet_delete_ne {κ α : Type} [DecidableEq κ] (m : List (κ × α)) (k k' : κ)
    (h : k' ≠ k) : mapGet (mapDelete m k) k' = mapGet m k' := by
  have hkk : ¬(k = k') := fun hh => h hh.symm
  induction m with
  | nil => simp [mapDelete, mapGet]
  | cons e rest ih =>
    by_cases he : e.1 = k
    · simp [mapDelete, he, mapGet, hkk, ih]
    · simp [mapDelete, he, mapGet, ih]

theorem mapGet_filter_key {κ α : Type} [DecidableEq κ] (m : List (κ × α)) (g : κ → Bool)
    (k : κ) : mapGet (m.filter (fun e => g e.1)) k
      = if g k then mapGet m k else none := by
  induction m with
  | nil => cases hg : g k <;> simp [mapGet, hg]
  | cons e rest ih =>
    by_cases he : e.1 = k
    · subst he
      cases hg : g e.1
      · simp [List.filter_cons, hg, ih]
      · simp [List.filter_cons, hg, mapGet]
    · cases hge : g e.1
      · simp [List.filter_cons, hge, ih, mapGet, he]
      · simp [List.filter_cons, hge, mapGet, he, ih]

/-- C3 (amended): from a state in which the URI is not currently
penalised and has no still-scheduled back-off timer, after
`registerFailedAttempt(uri, kid)` every call `wait(uri, kid')` — for
any `kid'` — fails immediately with `WaitPeriodNotYetEndedJwkError`
while less than `waitSeconds` have elapsed since the failed attempt;
once `waitSeconds` have elapsed, or after
`registerSuccessfulAttempt(uri, kid'')` for any `kid''`, `wait` for any
kid succeeds immediately. The kid arguments are universally quantified
throughout: the waiting state is keyed by URI only. -/
theorem simplePenaltyBox_backoff_cycle
    (s : SimplePenaltyBox) (uri kid kid' kid'' : String) (now t : Nat)
    (_hw : mapGet s.waitingUris uri = none)
    (ht : ∀ tm ∈ s.timers, tm.uri ≠ uri) :
    (s.registerFailedAttempt now uri kid).wait uri kid'
        = .error .waitPeriodNotYetEndedJwkError
    ∧ (t < now + s.waitSeconds * 1000 →
        ((s.registerFailedAttempt now uri kid).advanceTo t).wait uri kid'
          = .error .waitPeriodNotYetEndedJwkError)
    ∧ (now + s.waitSeconds * 1000 ≤ t →
        ((s.registerFailedAttempt now uri kid).advanceTo t).wait uri kid' = .ok ())
    ∧ ((s.registerFailedAttempt now uri kid).registerSuccessfulAttempt uri kid'').wait
        uri kid' = .ok () := by
  refine ⟨?_, ?_, ?_, ?_⟩
  · simp [SimplePenaltyBox.wait, SimplePenaltyBox.registerFailedAttempt, mapGet_set_self]
  · intro hlt
    have hAny : (((s.timers ++ [(PBTimer.mk s.nextTimerId uri (now + s.waitSeconds * 1000))]).filter
        (fun tm => decide (tm.fireAt ≤ t))).any (fun tm => tm.uri == uri)) = false := by
      rw [Bool.eq_false_iff]
      intro hcontra
      rw [List.any_eq_true] at hcontra
      rcases hcontra with ⟨tm, htm, huri⟩
      rw [List.mem_filter] at htm
      rcases htm with ⟨hmem, hfire⟩
      rcases List.mem_append.mp hmem with hin | hin
      · exact ht tm hin (by simpa using huri)
      · have heq : tm = (PBTimer.mk s.nextTimerId uri (now + s.waitSeconds * 1000)) := by
          simpa using hin
        rw [heq] at hfire
        have : now + s.waitSeconds * 1000 ≤ t := of_decide_eq_true hfire
        omega
    have hfk := mapGet_filter_key
      (mapSet s.waitingUris uri s.nextTimerId)
      (fun u => !(((s.timers ++ [(PBTimer.mk s.nextTimerId uri (now + s.waitSeconds * 1000))]).filter
        (fun tm => decide (tm.fireAt ≤ t))).any (fun tm => tm.uri == u))) uri
    simp only [SimplePenaltyBox.wait, SimplePenaltyBox.advanceTo,
      SimplePenaltyBox.registerFailedAttempt]
    simp only [hfk, hAny]
    simp [mapGet_set_self]
  · intro hle
    have hAny : (((s.timers ++ [(PBTimer.mk s.nextTimerId uri (now + s.waitSeconds * 1000))]).filter
        (fun tm => decide (tm.fireAt ≤ t))).any (fun tm => tm.uri == uri)) = true := by
      rw [List.any_eq_true]
      refine ⟨(PBTimer.mk s.nextTimerId uri (now + s.waitSeconds * 1000)), ?_, by simp⟩
      rw [List.mem_filter]
      exact ⟨List.mem_append.mpr (Or.inr (by simp)), decide_eq_true hle⟩
    have hfk := mapGet_filter_key
      (mapSet s.waitingUris uri s.nextTimerId)
      (fun u => !(((s.timers ++ [(PBTimer.mk s.nextTimerId uri (now + s.waitSeconds * 1000))]).filter
        (fun tm => decide (tm.fireAt ≤ t))).any (fun tm => tm.uri == u))) uri
    simp only [SimplePenaltyBox.wait, SimplePenaltyBox.advanceTo,
      SimplePenaltyBox.registerFailedAttempt]
    simp only [hfk, hAny]
    simp
  · simp [SimplePenaltyBox.registerSuccessfulAttempt, SimplePenaltyBox.release,
      SimplePenaltyBox.wait, SimplePenaltyBox.registerFailedAttempt, mapGet_set_self,
      mapGet_delete_self]

/-- C3 (counterexample): the claim as stated is false: with `waitSeconds
= 10`, after a failed attempt at 0 ms and a second failed attempt for
the same URI at 5000 ms, the wait period of the second attempt should
run until 15000 ms, yet at 10000 ms — only 5 s after that failed
attempt — the first attempt's surviving timer releases the URI and
`wait` succeeds. -/
theorem simplePenaltyBox_backoff_cycle_counterexample :
    ((((spbClean.registerFailedAttempt 0 "https://idp.example/jwks.json"
        "kid1").registerFailedAttempt 5000 "https://idp.example/jwks.json"
        "kid2").advanceTo 10000).wait "https://idp.example/jwks.json" "kid3" = .ok ())
    ∧ 10000 < 5000 + spbClean.waitSeconds * 1000 :=
  ⟨rfl, by decide⟩

/-- C3 (witness): the amended back-off cycle at concrete inputs: one
failed attempt at 0 ms in a clean box; `wait` fails right away and at
9999 ms, succeeds at 10000 ms, and succeeds after a successful
attempt. -/
theorem simplePenaltyBox_backoff_cycle_witness :
    ((spbClean.registerFailedAttempt 0 uriA "k1").wait uriA "k2"
        = .error .waitPeriodNotYetEndedJwkError)
    ∧ (((spbClean.registerFailedAttempt 0 uriA "k1").advanceTo 9999).wait uriA "k2"
        = .error .waitPeriodNotYetEndedJwkError)
    ∧ (((spbClean.registerFailedAttempt 0 uriA "k1").advanceTo 10000).wait uriA "k2"
        = .ok ())
    ∧ (((spbClean.registerFailedAttempt 0 uriA "k1").registerSuccessfulAttempt uriA
        "k3").wait uriA "k2" = .ok ()) := by
  have h1 := simplePenaltyBox_backoff_cycle spbClean uriA "k1" "k2" "k3" 0 9999
    rfl (by decide)
  have h2 := simplePenaltyBox_backoff_cycle spbClean uriA "k1" "k2" "k3" 0 10000
    rfl (by decide)
  exact ⟨h1.1, h1.2.1 (by decide), h2.2.2.1 (by decide), h1.2.2.2⟩

/-- C10: `registerFailedAttempt` overwrites the stored timer id for the
URI without cancelling the previously scheduled timer: after failed
attempts at `t1` and then `t2` (both within the first wait window,
no release in between), the first timer is still scheduled while the
map holds the second timer's id; the first timer fires `waitSeconds`
after the first failure and deletes the URI, so `wait` succeeds at
`t1 + waitSeconds`, which is strictly earlier than `waitSeconds` after
the second failed attempt. -/
theorem simplePenaltyBox_registerFailedAttempt_overwrites
    (s : SimplePenaltyBox) (uri kid1 kid2 kid' : String) (t1 t2 : Nat)
    (_hw : mapGet s.waitingUris uri = none)
    (_ht : ∀ tm ∈ s.timers, tm.uri ≠ uri)
    (h12 : t1 < t2) (_hpend : t2 < t1 + s.waitSeconds * 1000) :
    ((PBTimer.mk s.nextTimerId uri (t1 + s.waitSeconds * 1000))
        ∈ ((s.registerFailedAttempt t1 uri kid1).registerFailedAttempt t2 uri kid2).timers)
    ∧ (mapGet ((s.registerFailedAttempt t1 uri kid1).registerFailedAttempt t2 uri
        kid2).waitingUris uri = some (s.nextTimerId + 1))
    ∧ ((((s.registerFailedAttempt t1 uri kid1).registerFailedAttempt t2 uri
        kid2).advanceTo (t1 + s.waitSeconds * 1000)).wait uri kid' = .ok ())
    ∧ t1 + s.waitSeconds * 1000 < t2 + s.waitSeconds * 1000 := by
  refine ⟨?_, ?_, ?_, ?_⟩
  · simp [SimplePenaltyBox.registerFailedAttempt]
  · simp [SimplePenaltyBox.registerFailedAttempt, mapGet_set_self]
  · have hAny : ((((s.timers ++ [PBTimer.mk s.nextTimerId uri (t1 + s.waitSeconds * 1000)])
        ++ [PBTimer.mk (s.nextTimerId + 1) uri (t2 + s.waitSeconds * 1000)]).filter
        (fun tm => decide (tm.fireAt ≤ t1 + s.waitSeconds * 1000))).any
        (fun tm => tm.uri == uri)) = true := by
      rw [List.any_eq_true]
      refine ⟨PBTimer.mk s.nextTimerId uri (t1 + s.waitSeconds * 1000), ?_, by simp⟩
      rw [List.mem_filter]
      constructor
      · exact List.mem_append.mpr (Or.inl (List.mem_append.mpr (Or.inr (by simp))))
      · exact decide_eq_true (Nat.le_refl _)
    have hfk := mapGet_filter_key
      (mapSet (mapSet s.waitingUris uri s.nextTimerId) uri (s.nextTimerId + 1))
      (fun u => !((((s.timers ++ [PBTimer.mk s.nextTimerId uri (t1 + s.waitSeconds * 1000)])
        ++ [PBTimer.mk (s.nextTimerId + 1) uri (t2 + s.waitSeconds * 1000)]).filter
        (fun tm => decide (tm.fireAt ≤ t1 + s.waitSeconds * 1000))).any
        (fun tm => tm.uri == u))) uri
    simp only [SimplePenaltyBox.wait, SimplePenaltyBox.advanceTo,
      SimplePenaltyBox.registerFailedAttempt]
    simp only [hfk, hAny]
    simp
  · omega

/-- C10 (witness): the overwrite scenario at concrete inputs: failures
at 0 ms and 5000 ms in a clean box with `waitSeconds = 10`; the first
timer survives, the map holds the second id, and `wait` succeeds at
10000 ms, earlier than 15000 ms. -/
theorem simplePenaltyBox_registerFailedAttempt_overwrites_witness :
    ((PBTimer.mk 1 uriA 10000)
        ∈ ((spbClean.registerFailedAttempt 0 uriA "k1").registerFailedAttempt 5000 uriA
          "k2").timers)
    ∧ (mapGet ((spbClean.registerFailedAttempt 0 uriA "k1").registerFailedAttempt 5000
        uriA "k2").waitingUris uriA = some 2)
    ∧ ((((spbClean.registerFailedAttempt 0 uriA "k1").registerFailedAttempt 5000 uriA
        "k2").advanceTo 10000).wait uriA "k3" = .ok ())
    ∧ 10000 < 5000 + spbClean.waitSeconds * 1000 :=
  simplePenaltyBox_registerFailedAttempt_overwrites spbClean uriA "k1" "k2" "k3" 0 5000
    rfl (by decide) (by decide) (by decide)

theorem findJwkInJwks_kid (jwks : Jwks) (kid : String) (jwk : Json)
    (h : findJwkInJwks jwks kid = some jwk) : jwkKid jwk = some (.str kid) := by
  have hp := List.find?_some h
  cases jwk with
  | obj o =>
    have hp2 : (match jsGet o "kid" with
      | some (Json.str s) => s == kid
      | _ => false) = true := hp
    show jsGet o "kid" = some (Json.str kid)
    cases hg : jsGet o "kid" with
    | none => rw [hg] at hp2; simp at hp2
    | some v =>
      cases v with
      | str s2 =>
        rw [hg] at hp2
        simp at hp2
        rw [hp2]
      | null => rw [hg] at hp2; simp at hp2
      | bool b => rw [hg] at hp2; simp at hp2
      | num n => rw [hg] at hp2; simp at hp2
      | arr l => rw [hg] at hp2; simp at hp2
      | obj o2 => rw [hg] at hp2; simp at hp2
  | null => exact Bool.noConfusion hp
  | bool b => exact Bool.noConfusion hp
  | num n => exact Bool.noConfusion hp
  | str s2 => exact Bool.noConfusion hp
  | arr l => exact Bool.noConfusion hp

/-- C1: for a JWT whose header kid is a string, `getJwk` returns a
cached hit with no penalty-box call and no fetch; on a cache miss it
first calls `penaltyBox.wait(uri, kid)` (which may fail fast with
`WaitPeriodNotYetEndedJwkError`), then fetches via `getJwks` and looks
the kid up in the freshly fetched set; if the kid is absent there it
calls `registerFailedAttempt` before raising `KidNotFoundInJwksError`,
and if present it calls `registerSuccessfulAttempt` and returns that
JWK. The event lists record the interactions in order. -/
theorem simpleJwksCache_getJwk_spec
    (pbWaitFails : String → String → Bool) (fetchRes : Except JwtError Jwks)
    (s : CacheState) (uri : String) (jwt : DecomposedJwt) (kid : String)
    (hkid : jwt.headerKid = some (.str kid)) :
    (∀ jwk, cachedJwkLookup s uri kid = some jwk →
        getJwk pbWaitFails fetchRes s uri jwt = (.ok jwk, [], s))
    ∧ (cachedJwkLookup s uri kid = none → pbWaitFails uri kid = true →
        getJwk pbWaitFails fetchRes s uri jwt
          = (.error .waitPeriodNotYetEndedJwkError, [.penaltyBoxWait uri kid], s))
    ∧ (∀ jwks, cachedJwkLookup s uri kid = none → pbWaitFails uri kid = false →
        fetchRes = .ok jwks → findJwkInJwks jwks kid = none →
        getJwk pbWaitFails fetchRes s uri jwt
          = (.error .kidNotFoundInJwksError,
             [.penaltyBoxWait uri kid, .fetch uri, .registerFailedAttempt uri kid],
             { jwksCache := mapSet s.jwksCache uri jwks }))
    ∧ (∀ jwks jwk, cachedJwkLookup s uri kid = none → pbWaitFails uri kid = false →
        fetchRes = .ok jwks → findJwkInJwks jwks kid = some jwk →
        getJwk pbWaitFails fetchRes s uri jwt
          = (.ok jwk,
             [.penaltyBoxWait uri kid, .fetch uri, .registerSuccessfulAttempt uri kid],
             { jwksCache := mapSet s.jwksCache uri jwks })) := by
  refine ⟨?_, ?_, ?_, ?_⟩
  · intro jwk h
    simp [getJwk, hkid, h]
  · intro h1 h2
    simp [getJwk, hkid, h1, h2]
  · intro jwks h1 h2 h3 h4
    subst h3
    simp [getJwk, getJwksSeq, hkid, h1, h2, h4]
  · intro jwks jwk h1 h2 h3 h4
    subst h3
    simp [getJwk, getJwksSeq, hkid, h1, h2, h4]

/-- C1 (witness): a cached hit at concrete inputs returns the cached
JWK with no penalty-box and no fetch interaction. -/
theorem simpleJwksCache_getJwk_spec_witness :
    getJwk (fun _ _ => false) (.error .fetchError) cacheA uriA jwtA
      = (.ok jwkA, [], cacheA) :=
  (simpleJwksCache_getJwk_spec (fun _ _ => false) (.error .fetchError) cacheA uriA jwtA
    "k1" rfl).1 jwkA rfl

/-- C4 (amended): `getCachedJwk` never fetches and never touches the
penalty box (its event list is empty) and leaves the cache unchanged;
it fails with `JwtWithoutValidKidError` if the JWT header has no string
kid — this check runs first, even when the URI is absent from the
cache — otherwise fails with `JwksNotAvailableInCacheError` if the URI
is absent, fails with `KidNotFoundInJwksError` if no cached JWK carries
the header's kid, and otherwise returns the first JWK whose kid
matches. -/
theorem simpleJwksCache_getCachedJwk_spec (s : CacheState) (uri : String)
    (jwt : DecomposedJwt) :
    ((getCachedJwk s uri jwt).2.1 = [] ∧ (getCachedJwk s uri jwt).2.2 = s)
    ∧ ((∀ k, jwt.headerKid ≠ some (.str k)) →
        (getCachedJwk s uri jwt).1 = .error .jwtWithoutValidKidError)
    ∧ (∀ kid, jwt.headerKid = some (.str kid) →
        (mapGet s.jwksCache uri = none →
          (getCachedJwk s uri jwt).1 = .error .jwksNotAvailableInCacheError)
        ∧ (∀ jwks, mapGet s.jwksCache uri = some jwks →
            (findJwkInJwks jwks kid = none →
              (getCachedJwk s uri jwt).1 = .error .kidNotFoundInJwksError)
            ∧ (∀ jwk, findJwkInJwks jwks kid = some jwk →
              (getCachedJwk s uri jwt).1 = .ok jwk))) := by
  refine ⟨?_, ?_, ?_⟩
  · cases hkid : jwt.headerKid with
    | none => simp [getCachedJwk, hkid]
    | some v =>
      cases v with
      | str kid =>
        cases hm : mapGet s.jwksCache uri with
        | none => simp [getCachedJwk, hkid, hm]
        | some jwks =>
          cases hf : findJwkInJwks jwks kid with
          | none => simp [getCachedJwk, hkid, hm, hf]
          | some jwk => simp [getCachedJwk, hkid, hm, hf]
      | null => simp [getCachedJwk, hkid]
      | bool b => simp [getCachedJwk, hkid]
      | num n => simp [getCachedJwk, hkid]
      | arr l => simp [getCachedJwk, hkid]
      | obj o => simp [getCachedJwk, hkid]
  · intro hnot
    cases hkid : jwt.headerKid with
    | none => simp [getCachedJwk, hkid]
    | some v =>
      cases v with
      | str kid => exact absurd hkid (hnot kid)
      | null => simp [getCachedJwk, hkid]
      | bool b => simp [getCachedJwk, hkid]
      | num n => simp [getCachedJwk, hkid]
      | arr l => simp [getCachedJwk, hkid]
      | obj o => simp [getCachedJwk, hkid]
  · intro kid hkid
    refine ⟨?_, ?_⟩
    · intro hm
      simp [getCachedJwk, hkid, hm]
    · intro jwks hm
      refine ⟨?_, ?_⟩
      · intro hf
        simp [getCachedJwk, hkid, hm, hf]
      · intro jwk hf
        simp [getCachedJwk, hkid, hm, hf]

/-- C4 (counterexample): the claim as stated resolves an absent URI to
`JwksNotAvailableInCacheError` first; on an empty cache with a JWT
without a kid claim, the code instead raises
`JwtWithoutValidKidError` — the kid check runs before the cache
check. -/
theorem simpleJwksCache_getCachedJwk_spec_counterexample :
    mapGet emptyCache.jwksCache uriA = none
    ∧ (getCachedJwk emptyCache uriA jwtNoKid).1 = .error .jwtWithoutValidKidError
    ∧ JwtError.jwtWithoutValidKidError ≠ JwtError.jwksNotAvailableInCacheError :=
  ⟨rfl, rfl, by decide⟩

/-- C4 (witness): a cached hit at concrete inputs: no events, and the
cached JWK is returned. -/
theorem simpleJwksCache_getCachedJwk_spec_witness :
    ((getCachedJwk cacheA uriA jwtA).2.1 = [])
    ∧ ((getCachedJwk cacheA uriA jwtA).1 = .ok jwkA) :=
  ⟨(simpleJwksCache_getCachedJwk_spec cacheA uriA jwtA).1.1,
   (((simpleJwksCache_getCachedJwk_spec cacheA uriA jwtA).2.2 "k1" rfl).2 jwksA rfl).2
     jwkA rfl⟩

/-- C8 (amended): any JWK returned by `getJwk` or `getCachedJwk` has a
string `kid` equal to the JWT header's kid — which may be the empty
string: a JWT whose header kid is the empty string resolves exactly
when some JWK in the set has `kid` equal to the empty string (see the
counterexample). -/
theorem jwkWithKid_matches_header
    (pbWaitFails : String → String → Bool) (fetchRes : Except JwtError Jwks)
    (s : CacheState) (uri : String) (jwt : DecomposedJwt) (jwk : Json) (kid : String)
    (hkid : jwt.headerKid = some (.str kid)) :
    ((getCachedJwk s uri jwt).1 = .ok jwk → jwkKid jwk = some (.str kid))
    ∧ ((getJwk pbWaitFails fetchRes s uri jwt).1 = .ok jwk →
        jwkKid jwk = some (.str kid)) := by
  constructor
  · intro hok
    cases hm : mapGet s.jwksCache uri with
    | none => simp [getCachedJwk, hkid, hm] at hok
    | some jwks =>
      cases hf : findJwkInJwks jwks kid with
      | none => simp [getCachedJwk, hkid, hm, hf] at hok
      | some jwk' =>
        have heq : jwk' = jwk := by simp [getCachedJwk, hkid, hm, hf] at hok; exact hok
        subst heq
        exact findJwkInJwks_kid jwks kid jwk' hf
  · intro hok
    cases hcc : cachedJwkLookup s uri kid with
    | some jwk' =>
      have heq : jwk' = jwk := by simp [getJwk, hkid, hcc] at hok; exact hok
      subst heq
      have hcc' : (mapGet s.jwksCache uri).bind (fun jwks => findJwkInJwks jwks kid)
          = some jwk' := hcc
      rcases Option.bind_eq_some.mp hcc' with ⟨jwks, _, hf⟩
      exact findJwkInJwks_kid jwks kid jwk' hf
    | none =>
      cases hpb : pbWaitFails uri kid with
      | true => simp [getJwk, hkid, hcc, hpb] at hok
      | false =>
        cases fetchRes with
        | error e => simp [getJwk, getJwksSeq, hkid, hcc, hpb] at hok
        | ok jwks =>
          cases hf : findJwkInJwks jwks kid with
          | none => simp [getJwk, getJwksSeq, hkid, hcc, hpb, hf] at hok
          | some jwk' =>
            have heq : jwk' = jwk := by
              simp [getJwk, getJwksSeq, hkid, hcc, hpb, hf] at hok
              exact hok
            subst heq
            exact findJwkInJwks_kid jwks kid jwk' hf

/-- C8 (counterexample): the claim as stated is false: a JWT whose
header kid is the empty string IS resolved — both `getCachedJwk` and
`getJwk` return a JWK whose kid is the empty string, because
`findJwkInJwks` only excludes `null`/absent kids, not empty ones. -/
theorem jwkWithKid_matches_header_counterexample :
    ((getCachedJwk cacheEmptyKid uriA jwtEmptyKid).1 = .ok jwkEmptyKid)
    ∧ ((getJwk (fun _ _ => false) (.error .fetchError) cacheEmptyKid uriA
        jwtEmptyKid).1 = .ok jwkEmptyKid)
    ∧ jwkKid jwkEmptyKid = some (.str "")
    ∧ jwtEmptyKid.headerKid = some (.str "") :=
  ⟨rfl, rfl, rfl, rfl⟩

/-- C8 (witness): the returned JWK's kid equals the header's kid at
concrete inputs. -/
theorem jwkWithKid_matches_header_witness :
    jwkKid jwkA = some (.str "k1") :=
  (jwkWithKid_matches_header (fun _ _ => false) (.error .fetchError) cacheA uriA jwtA
    jwkA "k1" rfl).1 rfl

/-- C9: `getJwks` never consults the penalty box: its event trace is
exactly one fetch, whatever the penalty-box state (the function does
not even take the penalty box as input); on the `getJwk` path, whenever
a fetch event occurs, the very first event of the call is
`penaltyBox.wait` for that URI and the header's kid. -/
theorem getJwks_bypasses_penaltyBox
    (pbWaitFails : String → String → Bool) (fetchRes : Except JwtError Jwks)
    (s : CacheState) (uri : String) (jwt : DecomposedJwt) (kid : String)
    (hkid : jwt.headerKid = some (.str kid)) :
    ((getJwksSeq fetchRes s uri).2.1 = [CacheEvent.fetch uri])
    ∧ (∀ u, CacheEvent.fetch u ∈ (getJwk pbWaitFails fetchRes s uri jwt).2.1 →
        ((getJwk pbWaitFails fetchRes s uri jwt).2.1).head?
          = some (.penaltyBoxWait uri kid)) := by
  constructor
  · cases fetchRes with
    | error e => rfl
    | ok jwks => rfl
  · intro u hu
    cases hcc : cachedJwkLookup s uri kid with
    | some jwk' => simp [getJwk, hkid, hcc] at hu
    | none =>
      cases hpb : pbWaitFails uri kid with
      | true => simp [getJwk, hkid, hcc, hpb] at hu
      | false =>
        cases fetchRes with
        | error e => simp [getJwk, getJwksSeq, hkid, hcc, hpb]
        | ok jwks =>
          cases hf : findJwkInJwks jwks kid with
          | none => simp [getJwk, getJwksSeq, hkid, hcc, hpb, hf]
          | some jwk' => simp [getJwk, getJwksSeq, hkid, hcc, hpb, hf]

/-- C9 (witness): at concrete inputs, `getJwks` emits exactly one fetch
event, and the `getJwk` call that fetches starts with the penalty-box
wait. -/
theorem getJwks_bypasses_penaltyBox_witness :
    ((getJwksSeq (.error .fetchError) emptyCache uriA).2.1 = [CacheEvent.fetch uriA])
    ∧ (((getJwk (fun _ _ => false) (.error .fetchError) emptyCache uriA jwtA).2.1).head?
        = some (.penaltyBoxWait uriA "k1")) :=
  ⟨(getJwks_bypasses_penaltyBox (fun _ _ => false) (.error .fetchError) emptyCache uriA
      jwtA "k1" rfl).1,
   (getJwks_bypasses_penaltyBox (fun _ _ => false) (.error .fetchError) emptyCache uriA
      jwtA "k1" rfl).2 uriA (by decide)⟩

theorem startGetJwks_pending (uri : String) (s : FlightState) (p : Nat)
    (h : mapGet s.fetchingJwks uri = some p) : startGetJwks uri s = (s, p, false) := by
  simp [startGetJwks, h]

theorem startGetJwksN_pending (n : Nat) (uri : String) (s : FlightState) (p : Nat)
    (h : mapGet s.fetchingJwks uri = some p) :
    startGetJwksN n uri s = (s, List.replicate n (p, false)) := by
  induction n with
  | zero => rfl
  | succ k ih =>
    simp [startGetJwksN, startGetJwks_pending uri s p h, ih, List.replicate_succ]

theorem startGetJwksN_fresh (n : Nat) (uri : String) (s : FlightState)
    (h : mapGet s.fetchingJwks uri = none) :
    startGetJwksN (n + 1) uri s
      = ({ s with nextPromiseId := s.nextPromiseId + 1,
                  fetchLog := s.fetchLog ++ [uri],
                  fetchingJwks := mapSet s.fetchingJwks uri s.nextPromiseId },
         (s.nextPromiseId, true) :: List.replicate n (s.nextPromiseId, false)) := by
  have hstart : startGetJwks uri s
      = ({ s with nextPromiseId := s.nextPromiseId + 1,
                  fetchLog := s.fetchLog ++ [uri],
                  fetchingJwks := mapSet s.fetchingJwks uri s.nextPromiseId },
         s.nextPromiseId, true) := by
    simp [startGetJwks, h]
  have hpend := startGetJwksN_pending n uri
    { s with nextPromiseId := s.nextPromiseId + 1,
             fetchLog := s.fetchLog ++ [uri],
             fetchingJwks := mapSet s.fetchingJwks uri s.nextPromiseId }
    s.nextPromiseId
    (by exact mapGet_set_self s.fetchingJwks uri s.nextPromiseId)
  simp [startGetJwksN, hstart, hpend]

theorem settleGetJwks_settled (uri : String) (p : Nat) (res : Except JwtError Jwks)
    (s : FlightState) :
    (settleGetJwks uri p res s).settled = mapSet s.settled p res := by
  cases res <;> rfl

/-- C2: single-flight fetch. Starting from a state with no pending
fetch for the URI, running the atomic synchronous prefixes of `n + 1`
concurrent `getJwks(uri)` calls (in any interleaving — the prefixes are
identical and atomic, so every interleaving is this sequence) invokes
the fetcher exactly once, and every caller awaits the same promise of
which only the first caller is the owner; when that one fetch settles
with `res`, every caller observes `res`. -/
theorem singleFlight_fetch_once (n : Nat) (uri : String) (s : FlightState)
    (res : Except JwtError Jwks)
    (h : mapGet s.fetchingJwks uri = none) :
    (startGetJwksN (n + 1) uri s).1.fetchLog = s.fetchLog ++ [uri]
    ∧ (startGetJwksN (n + 1) uri s).2
        = (s.nextPromiseId, true) :: List.replicate n (s.nextPromiseId, false)
    ∧ (∀ pr ∈ (startGetJwksN (n + 1) uri s).2,
        mapGet (settleGetJwks uri s.nextPromiseId res
          (startGetJwksN (n + 1) uri s).1).settled pr.1 = some res) := by
  have hN := startGetJwksN_fresh n uri s h
  refine ⟨by rw [hN], by rw [hN], ?_⟩
  intro pr hpr
  have hp1 : pr.1 = s.nextPromiseId := by
    rw [hN] at hpr
    rcases List.mem_cons.mp hpr with heq | hmem
    · rw [heq]
    · exact congrArg Prod.fst (List.eq_of_mem_replicate hmem)
  rw [hp1, settleGetJwks_settled]
  exact mapGet_set_self _ _ _

/-- C2 (witness): three concurrent `getJwks` calls on a fresh state:
one fetch, one shared promise, and all callers observe the settled
result. -/
theorem singleFlight_fetch_once_witness :
    (startGetJwksN 3 uriA flightFresh).1.fetchLog = [uriA]
    ∧ (startGetJwksN 3 uriA flightFresh).2 = (0, true) :: List.replicate 2 (0, false)
    ∧ mapGet (settleGetJwks uriA 0 (.ok jwksA)
        (startGetJwksN 3 uriA flightFresh).1).settled 0 = some (.ok jwksA) := by
  have h := singleFlight_fetch_once 2 uriA flightFresh (.ok jwksA) rfl
  exact ⟨h.1, h.2.1, h.2.2 (0, true) (by rw [h.2.1]; exact List.mem_cons_self _ _)⟩

/-- C5: on fetch (or parse) failure inside `getJwks(uri)`, after the
call the pending entry for the URI is gone, the JWKS cache is exactly
what it was before the call, and every caller that awaited the fetch
observes the same error. -/
theorem singleFlight_failure (n : Nat) (uri : String) (s : FlightState) (e : JwtError)
    (h : mapGet s.fetchingJwks uri = none) :
    mapGet (settleGetJwks uri s.nextPromiseId (.error e)
        (startGetJwksN (n + 1) uri s).1).fetchingJwks uri = none
    ∧ (settleGetJwks uri s.nextPromiseId (.error e)
        (startGetJwksN (n + 1) uri s).1).jwksCache = s.jwksCache
    ∧ (∀ pr ∈ (startGetJwksN (n + 1) uri s).2,
        mapGet (settleGetJwks uri s.nextPromiseId (.error e)
          (startGetJwksN (n + 1) uri s).1).settled pr.1 = some (.error e)) := by
  have hN := startGetJwksN_fresh n uri s h
  refine ⟨?_, ?_, ?_⟩
  · rw [hN]
    exact mapGet_delete_self _ _
  · rw [hN]
    rfl
  · intro pr hpr
    have hp1 : pr.1 = s.nextPromiseId := by
      rw [hN] at hpr
      rcases List.mem_cons.mp hpr with heq | hmem
      · rw [heq]
      · exact congrArg Prod.fst (List.eq_of_mem_replicate hmem)
    rw [hp1, settleGetJwks_settled]
    exact mapGet_set_self _ _ _

/-- C5 (witness): two concurrent callers on a fresh state, fetch fails:
pending entry gone, cache unchanged, both callers see the error. -/
theorem singleFlight_failure_witness :
    mapGet (settleGetJwks uriA 0 (.error .fetchError)
        (startGetJwksN 2 uriA flightFresh).1).fetchingJwks uriA = none
    ∧ (settleGetJwks uriA 0 (.error .fetchError)
        (startGetJwksN 2 uriA flightFresh).1).jwksCache = flightFresh.jwksCache
    ∧ mapGet (settleGetJwks uriA 0 (.error .fetchError)
        (startGetJwksN 2 uriA flightFresh).1).settled 0 = some (.error .fetchError) := by
  have h := singleFlight_failure 1 uriA flightFresh .fetchError rfl
  exact ⟨h.1, h.2.1, h.2.2 (0, true) (by
    rw [(startGetJwksN_fresh 1 uriA flightFresh rfl)]
    exact List.mem_cons_self _ _)⟩

theorem assertStringArrayContainsString_rawJwt (v : Option String) (exp : List String)
    (e : AlbError) (h : assertStringArrayContainsString v exp = .error e) :
    e.rawJwt = none := by
  unfold assertStringArrayContainsString at h
  cases v with
  | none =>
    injection h with h2
    rw [← h2]
  | some s =>
    by_cases hc : s ∈ exp
    · simp [hc] at h
    · simp [hc] at h
      rw [← h]

theorem checkAlbArn_rawJwt (jwt : AlbDecomposedJwt) (a : AlbParam) (e : AlbError)
    (h : checkAlbArn jwt a = .error e) : e.rawJwt = none := by
  cases a with
  | null => exact Except.noConfusion h
  | undef =>
    have h2 : (Except.error (AlbError.mk .parameterValidation none) : Except AlbError Unit)
        = Except.error e := h
    injection h2 with h3
    rw [← h3]
  | str s => exact assertStringArrayContainsString_rawJwt _ _ _ h
  | arr l => exact assertStringArrayContainsString_rawJwt _ _ _ h

theorem checkAlbClientId_rawJwt (jwt : AlbDecomposedJwt) (c : AlbParam) (e : AlbError)
    (h : checkAlbClientId jwt c = .error e) : e.rawJwt = none := by
  cases c with
  | null => exact Except.noConfusion h
  | undef =>
    have h2 : (Except.error (AlbError.mk .parameterValidation none) : Except AlbError Unit)
        = Except.error e := h
    injection h2 with h3
    rw [← h3]
  | str s => exact assertStringArrayContainsString_rawJwt _ _ _ h
  | arr l => exact assertStringArrayContainsString_rawJwt _ _ _ h

theorem validateAlbJwtFields_rawJwt (jwt : AlbDecomposedJwt) (a c : AlbParam)
    (e : AlbError) (h : validateAlbJwtFields jwt a c = .error e) : e.rawJwt = none := by
  unfold validateAlbJwtFields at h
  cases ha : checkAlbArn jwt a with
  | error e2 =>
    rw [ha] at h
    have h2 : (Except.error e2 : Except AlbError Unit) = Except.error e := h
    injection h2 with h3
    rw [← h3]
    exact checkAlbArn_rawJwt _ _ _ ha
  | ok u =>
    rw [ha] at h
    exact checkAlbClientId_rawJwt _ _ _ h

/-- C6: in `AlbJwtVerifier.verify`/`verifySync` the ALB signer/client
header checks run only after signature verification succeeded — a
signature failure yields the signature error itself, with `rawJwt`
unset, regardless of the header contents; when an ALB field check
fails, the thrown error carries `rawJwt` if and only if
`includeRawJwtInErrors` is set and the error is a
`JwtInvalidClaimError`; and a header `signer` not matching the
configured (non-null, defined) `albArn` makes the thrown error a
`JwtInvalidClaimError`. -/
theorem albVerify_rawJwt_spec (jwt : AlbDecomposedJwt) (albArn clientId : AlbParam)
    (flag : Bool) (e : AlbError)
    (hv : albVerify true jwt albArn clientId flag = .error e) :
    albVerify false jwt albArn clientId flag = .error ⟨.jwtInvalidSignature, none⟩
    ∧ (e.rawJwt = some jwt ↔ (flag = true ∧ e.kind = .jwtInvalidClaim))
    ∧ (∀ s, jwt.signer = some s → albArn ≠ .undef → albArn ≠ .null →
        s ∉ albArn.toList → e.kind = .jwtInvalidClaim) := by
  refine ⟨rfl, ?_, ?_⟩
  · cases hval : validateAlbJwtFields jwt albArn clientId with
    | ok u =>
      have hok : albVerify true jwt albArn clientId flag = .ok jwt.payload := by
        simp [albVerify, verifyDecomposedJwtSpec, hval]
      rw [hok] at hv
      exact Except.noConfusion hv
    | error err =>
      have hraw := validateAlbJwtFields_rawJwt _ _ _ _ hval
      have hv2 : (if flag && err.isJwtInvalidClaimError then
          Except.error (err.withRawJwt jwt) else Except.error err)
          = (Except.error e : Except AlbError String) := by
        rw [← hv]
        simp [albVerify, verifyDecomposedJwtSpec, hval]
      cases hf : flag with
      | false =>
        rw [hf] at hv2
        simp at hv2
        rw [← hv2]
        simp [hraw]
      | true =>
        cases hk : err.kind with
        | jwtInvalidClaim =>
          have hic : err.isJwtInvalidClaimError = true := by
            simp [AlbError.isJwtInvalidClaimError, hk]
          rw [hf, hic] at hv2
          simp [AlbError.withRawJwt] at hv2
          rw [← hv2]
          simp [hk]
        | jwtInvalidSignature =>
          have hic : err.isJwtInvalidClaimError = false := by
            simp [AlbError.isJwtInvalidClaimError, hk]
          rw [hf, hic] at hv2
          simp at hv2
          rw [← hv2]
          simp [hraw, hk]
        | parameterValidation =>
          have hic : err.isJwtInvalidClaimError = false := by
            simp [AlbError.isJwtInvalidClaimError, hk]
          rw [hf, hic] at hv2
          simp at hv2
          rw [← hv2]
          simp [hraw, hk]
  · intro s hs hne1 hne2 hnotin
    have harn : checkAlbArn jwt albArn = .error ⟨.jwtInvalidClaim, none⟩ := by
      cases albArn with
      | undef => exact absurd rfl hne1
      | null => exact absurd rfl hne2
      | str a => simp [checkAlbArn, assertStringArrayContainsString, hs,
          AlbParam.toList] at hnotin ⊢; simp [hnotin]
      | arr l => simp [checkAlbArn, assertStringArrayContainsString, hs,
          AlbParam.toList] at hnotin ⊢; simp [hnotin]
    have hval : validateAlbJwtFields jwt albArn clientId
        = .error ⟨.jwtInvalidClaim, none⟩ := by
      simp [validateAlbJwtFields, harn]
    have hv2 : (if flag && (AlbError.mk .jwtInvalidClaim none).isJwtInvalidClaimError then
        Except.error ((AlbError.mk .jwtInvalidClaim none).withRawJwt jwt)
        else Except.error (AlbError.mk .jwtInvalidClaim none))
        = (Except.error e : Except AlbError String) := by
      rw [← hv]
      simp [albVerify, verifyDecomposedJwtSpec, hval]
    cases hf : flag with
    | false =>
      rw [hf] at hv2
      simp at hv2
      rw [← hv2]
    | true =>
      rw [hf] at hv2
      simp [AlbError.isJwtInvalidClaimError, AlbError.withRawJwt] at hv2
      rw [← hv2]

/-- C6 (witness): with a mismatching signer, a configured ARN, client
check disabled, and `includeRawJwtInErrors = true`: a signature failure
yields the bare signature error, while after successful signature
verification the claim error carries the raw JWT and is a
`JwtInvalidClaimError`. -/
theorem albVerify_rawJwt_spec_witness :
    albVerify false albJwt0 (.str "arn:aws:alb1") .null true
      = .error ⟨.jwtInvalidSignature, none⟩
    ∧ (albErr0.rawJwt = some albJwt0 ↔ (true = true ∧ albErr0.kind = .jwtInvalidClaim))
    ∧ albErr0.kind = .jwtInvalidClaim := by
  have h := albVerify_rawJwt_spec albJwt0 (.str "arn:aws:alb1") .null true albErr0 rfl
  exact ⟨h.1, h.2.1, h.2.2 "arn:aws:elasticloadbalancing:other" rfl (by decide) (by decide)
    (by decide)⟩

theorem checkOptionalJwkFields_ok (fs : List String) (o : List (String × Json))
    (h : checkOptionalJwkFields fs o = .ok ()) :
    ∀ g ∈ fs, jsHas o g = true → fieldIsString o g = true := by
  induction fs with
  | nil => intro g hg; exact absurd hg (List.not_mem_nil g)
  | cons f' fs' ih =>
    intro g hg hhas
    simp only [checkOptionalJwkFields] at h
    by_cases hc : (jsHas o f' && !(fieldIsString o f')) = true
    · rw [if_pos hc] at h; exact Except.noConfusion h
    · rw [if_neg hc] at h
      rcases List.mem_cons.mp hg with heq | hmem
      · subst heq
        cases hfs : fieldIsString o g with
        | true => rfl
        | false => exact absurd (by rw [hhas, hfs]; rfl) hc
      · exact ih h g hmem hhas

theorem checkMandatoryJwkFields_error (fs : List String) (o : List (String × Json))
    (e : JwtError) (h : checkMandatoryJwkFields fs o = .error e) :
    e = .jwkValidationError := by
  induction fs with
  | nil => exact Except.noConfusion h
  | cons f' fs' ih =>
    simp only [checkMandatoryJwkFields] at h
    by_cases hc : fieldIsString o f' = true
    · rw [if_pos hc] at h; exact ih h
    · rw [if_neg hc] at h
      injection h with h2
      exact h2.symm

theorem checkOptionalJwkFields_error (fs : List String) (o : List (String × Json))
    (e : JwtError) (h : checkOptionalJwkFields fs o = .error e) :
    e = .jwkValidationError := by
  induction fs with
  | nil => exact Except.noConfusion h
  | cons f' fs' ih =>
    simp only [checkOptionalJwkFields] at h
    by_cases hc : (jsHas o f' && !(fieldIsString o f')) = true
    · rw [if_pos hc] at h
      injection h with h2
      exact h2.symm
    · rw [if_neg hc] at h; exact ih h

theorem assertIsJwk_error (j : Json) (e : JwtError) (h : assertIsJwk j = .error e) :
    e = .jwkValidationError := by
  unfold assertIsJwk at h
  by_cases h1 : jsFalsy j = true
  · rw [if_pos h1] at h
    injection h with h2
    exact h2.symm
  · rw [if_neg h1] at h
    by_cases h2 : (!(isJsonObject j)) = true
    · rw [if_pos h2] at h
      injection h with h3
      exact h3.symm
    · rw [if_neg h2] at h
      cases j with
      | obj o =>
        have hmatch : (match checkMandatoryJwkFields mandatoryJwkFieldNames o with
          | Except.error e9 => (Except.error e9 : Except JwtError Unit)
          | Except.ok _ => checkOptionalJwkFields optionalJwkFieldNames o)
            = Except.error e := h
        cases hcm : checkMandatoryJwkFields mandatoryJwkFieldNames o with
        | error e2 =>
          rw [hcm] at hmatch
          have h3 : (Except.error e2 : Except JwtError Unit) = .error e := hmatch
          injection h3 with h4
          rw [← h4]
          exact checkMandatoryJwkFields_error _ _ _ hcm
        | ok u =>
          rw [hcm] at hmatch
          exact checkOptionalJwkFields_error _ _ _ hmatch
      | null => simp [jsFalsy] at h1
      | bool b =>
        have h3 : (Except.error JwtError.jwkValidationError : Except JwtError Unit)
            = .error e := h
        injection h3 with h4
        exact h4.symm
      | num n =>
        have h3 : (Except.error JwtError.jwkValidationError : Except JwtError Unit)
            = .error e := h
        injection h3 with h4
        exact h4.symm
      | str s =>
        have h3 : (Except.error JwtError.jwkValidationError : Except JwtError Unit)
            = .error e := h
        injection h3 with h4
        exact h4.symm
      | arr l =>
        have h3 : (Except.error JwtError.jwkValidationError : Except JwtError Unit)
            = .error e := h
        injection h3 with h4
        exact h4.symm

theorem checkAllJwks_error (ks : List Json) (e : JwtError)
    (h : checkAllJwks ks = .error e) : e = .jwkValidationError := by
  induction ks with
  | nil => exact Except.noConfusion h
  | cons k ks' ih =>
    simp only [checkAllJwks] at h
    cases hk : assertIsJwk k with
    | error e2 =>
      rw [hk] at h
      have h2 : (Except.error e2 : Except JwtError Unit) = .error e := h
      injection h2 with h3
      rw [← h3]
      exact assertIsJwk_error k e2 hk
    | ok u => rw [hk] at h; exact ih h

theorem assertIsJwks_error (j : Json) (e : JwtError) (h : assertIsJwks j = .error e) :
    e = .jwkValidationError ∨ e = .jwksValidationError := by
  unfold assertIsJwks at h
  by_cases h1 : jsFalsy j = true
  · rw [if_pos h1] at h
    injection h with h2
    exact Or.inr h2.symm
  · rw [if_neg h1] at h
    by_cases h2 : (!(isJsonObject j)) = true
    · rw [if_pos h2] at h
      injection h with h3
      exact Or.inr h3.symm
    · rw [if_neg h2] at h
      cases j with
      | obj o =>
        have hmatch : (if (!(jsHas o "keys")) = true then
            (Except.error JwtError.jwksValidationError : Except JwtError Unit)
          else match jsGet o "keys" with
            | some (Json.arr ks) => checkAllJwks ks
            | _ => Except.error JwtError.jwksValidationError) = Except.error e := h
        by_cases h3 : (!(jsHas o "keys")) = true
        · rw [if_pos h3] at hmatch
          injection hmatch with h4
          exact Or.inr h4.symm
        · rw [if_neg h3] at hmatch
          cases hg : jsGet o "keys" with
          | none =>
            rw [hg] at hmatch
            have h4 : (Except.error JwtError.jwksValidationError : Except JwtError Unit)
                = .error e := hmatch
            injection h4 with h5
            exact Or.inr h5.symm
          | some v =>
            rw [hg] at hmatch
            cases v with
            | arr ks => exact Or.inl (checkAllJwks_error ks e hmatch)
            | null =>
              have h4 : (Except.error JwtError.jwksValidationError
                  : Except JwtError Unit) = .error e := hmatch
              injection h4 with h5
              exact Or.inr h5.symm
            | bool b =>
              have h4 : (Except.error JwtError.jwksValidationError
                  : Except JwtError Unit) = .error e := hmatch
              injection h4 with h5
              exact Or.inr h5.symm
            | num n =>
              have h4 : (Except.error JwtError.jwksValidationError
                  : Except JwtError Unit) = .error e := hmatch
              injection h4 with h5
              exact Or.inr h5.symm
            | str s =>
              have h4 : (Except.error JwtError.jwksValidationError
                  : Except JwtError Unit) = .error e := hmatch
              injection h4 with h5
              exact Or.inr h5.symm
            | obj o2 =>
              have h4 : (Except.error JwtError.jwksValidationError
                  : Except JwtError Unit) = .error e := hmatch
              injection h4 with h5
              exact Or.inr h5.symm
      | null => simp [jsFalsy] at h1
      | bool b =>
        have h4 : (Except.error JwtError.jwksValidationError : Except JwtError Unit)
            = .error e := h
        injection h4 with h5
        exact Or.inr h5.symm
      | num n =>
        have h4 : (Except.error JwtError.jwksValidationError : Except JwtError Unit)
            = .error e := h
        injection h4 with h5
        exact Or.inr h5.symm
      | str s =>
        have h4 : (Except.error JwtError.jwksValidationError : Except JwtError Unit)
            = .error e := h
        injection h4 with h5
        exact Or.inr h5.symm
      | arr l =>
        have h4 : (Except.error JwtError.jwksValidationError : Except JwtError Unit)
            = .error e := h
        injection h4 with h5
        exact Or.inr h5.symm

theorem find?_keyAppend_ne (o : List (String × Json)) (f g : String) (v : Json)
    (h : f ≠ g) :
    (o ++ [(f, v)]).find? (fun p => p.1 == g) = o.find? (fun p => p.1 == g) := by
  have hfg : (f == g) = false := by simp [h]
  induction o with
  | nil => simp [List.find?, hfg]
  | cons e o' ih =>
    cases he : (e.1 == g) with
    | true => simp [List.find?, he]
    | false => simp [List.find?, he, ih]

theorem jsGet_append_ne (o : List (String × Json)) (f g : String) (v : Json)
    (h : f ≠ g) : jsGet (o ++ [(f, v)]) g = jsGet o g := by
  unfold jsGet
  rw [find?_keyAppend_ne o f g v h]

theorem jsHas_append_ne (o : List (String × Json)) (f g : String) (v : Json)
    (h : f ≠ g) : jsHas (o ++ [(f, v)]) g = jsHas o g := by
  unfold jsHas
  rw [find?_keyAppend_ne o f g v h]

theorem fieldIsString_append_ne (o : List (String × Json)) (f g : String) (v : Json)
    (h : f ≠ g) : fieldIsString (o ++ [(f, v)]) g = fieldIsString o g := by
  unfold fieldIsString
  rw [jsGet_append_ne o f g v h]

theorem checkMandatoryJwkFields_append (fs : List String) (o : List (String × Json))
    (f : String) (v : Json) (hf : ∀ g ∈ fs, g ≠ f) :
    checkMandatoryJwkFields fs (o ++ [(f, v)]) = checkMandatoryJwkFields fs o := by
  induction fs with
  | nil => rfl
  | cons f' fs' ih =>
    have hne : f ≠ f' := fun heq => (hf f' (List.mem_cons_self _ _)) heq.symm
    simp only [checkMandatoryJwkFields]
    rw [fieldIsString_append_ne o f f' v hne,
        ih (fun g hg => hf g (List.mem_cons_of_mem _ hg))]

theorem checkOptionalJwkFields_append (fs : List String) (o : List (String × Json))
    (f : String) (v : Json) (hf : ∀ g ∈ fs, g ≠ f) :
    checkOptionalJwkFields fs (o ++ [(f, v)]) = checkOptionalJwkFields fs o := by
  induction fs with
  | nil => rfl
  | cons f' fs' ih =>
    have hne : f ≠ f' := fun heq => (hf f' (List.mem_cons_self _ _)) heq.symm
    simp only [checkOptionalJwkFields]
    rw [jsHas_append_ne o f f' v hne, fieldIsString_append_ne o f f' v hne,
        ih (fun g hg => hf g (List.mem_cons_of_mem _ hg))]

/-- C7 (amended): every JSON value `assertIsJwk` accepts is an object
whose `kty` holds a string value and whose present fields among `use`,
`alg`, `kid`, `n`, `e`, `x`, `y`, `crv` hold string values; rejection
is always with `JwkValidationError` (and `assertIsJwks` rejects with
`JwksValidationError` for a malformed key set, or propagates the
`JwkValidationError` of a bad key); unknown extra fields are tolerated.
Membership of `kty` in RSA/EC/OKP is NOT checked by this validator —
that is `assertIsSignatureJwk`'s job, done later by the algorithm
dispatcher (see the counterexample). -/
theorem assertIsJwk_spec (j : Json) (o : List (String × Json)) (f : String) (v : Json)
    (e : JwtError) :
    (assertIsJwk j = .ok () → isJsonObject j = true)
    ∧ (assertIsJwk (.obj o) = .ok () → fieldIsString o "kty" = true)
    ∧ (assertIsJwk (.obj o) = .ok () →
        ∀ g ∈ optionalJwkFieldNames, jsHas o g = true → fieldIsString o g = true)
    ∧ (assertIsJwk j = .error e → e = .jwkValidationError)
    ∧ (assertIsJwks j = .error e → e = .jwkValidationError ∨ e = .jwksValidationError)
    ∧ (assertIsJwk (.obj o) = .ok () → f ∉ optionalJwkFieldNames →
        f ∉ mandatoryJwkFieldNames → assertIsJwk (.obj (o ++ [(f, v)])) = .ok ()) := by
  refine ⟨?_, ?_, ?_, assertIsJwk_error j e, assertIsJwks_error j e, ?_⟩
  · intro h
    cases j with
    | obj o2 => rfl
    | null => exact absurd h (by simp [assertIsJwk])
    | bool b => cases b <;> exact absurd h (by simp [assertIsJwk, jsFalsy, isJsonObject])
    | num n => exact absurd h (by simp [assertIsJwk, jsFalsy, isJsonObject])
    | str s => exact absurd h (by simp [assertIsJwk, jsFalsy, isJsonObject])
    | arr l => exact absurd h (by simp [assertIsJwk, jsFalsy, isJsonObject])
  · intro h
    cases hcm : checkMandatoryJwkFields mandatoryJwkFieldNames o with
    | error e2 =>
      have hbad : assertIsJwk (.obj o) = .error e2 := by simp [assertIsJwk, jsFalsy, isJsonObject, hcm]
      rw [hbad] at h
      exact Except.noConfusion h
    | ok u =>
      have h1 : checkMandatoryJwkFields mandatoryJwkFieldNames o
          = (if fieldIsString o "kty" then checkMandatoryJwkFields [] o
             else .error .jwkValidationError) := rfl
      by_cases hc : fieldIsString o "kty" = true
      · exact hc
      · rw [h1, if_neg hc] at hcm
        exact Except.noConfusion hcm
  · intro h
    cases hcm : checkMandatoryJwkFields mandatoryJwkFieldNames o with
    | error e2 =>
      have hbad : assertIsJwk (.obj o) = .error e2 := by simp [assertIsJwk, jsFalsy, isJsonObject, hcm]
      rw [hbad] at h
      exact absurd h (by simp)
    | ok u =>
      have hopt : checkOptionalJwkFields optionalJwkFieldNames o = .ok () := by
        have h2 : assertIsJwk (.obj o)
            = checkOptionalJwkFields optionalJwkFieldNames o := by
          simp [assertIsJwk, jsFalsy, isJsonObject, hcm]
        rw [← h2]
        exact h
      exact checkOptionalJwkFields_ok _ _ hopt
  · intro h hno hnm
    have hfm : ∀ g ∈ mandatoryJwkFieldNames, g ≠ f := fun g hg heq => hnm (heq ▸ hg)
    have hfo : ∀ g ∈ optionalJwkFieldNames, g ≠ f := fun g hg heq => hno (heq ▸ hg)
    cases hcm : checkMandatoryJwkFields mandatoryJwkFieldNames o with
    | error e2 =>
      have hbad : assertIsJwk (.obj o) = .error e2 := by simp [assertIsJwk, jsFalsy, isJsonObject, hcm]
      rw [hbad] at h
      exact Except.noConfusion h
    | ok u =>
      have hopt : checkOptionalJwkFields optionalJwkFieldNames o = .ok () := by
        have h2 : assertIsJwk (.obj o)
            = checkOptionalJwkFields optionalJwkFieldNames o := by
          simp [assertIsJwk, jsFalsy, isJsonObject, hcm]
        rw [← h2]
        exact h
      have hm2 : checkMandatoryJwkFields mandatoryJwkFieldNames (o ++ [(f, v)])
          = .ok u := by
        rw [checkMandatoryJwkFields_append _ o f v hfm]
        exact hcm
      simp [assertIsJwk, jsFalsy, isJsonObject, hm2,
        checkOptionalJwkFields_append _ o f v hfo, hopt]

/-- C7 (counterexample): the claim as stated requires accepted `kty`
values to lie in RSA/EC/OKP, but `assertIsJwk` accepts any string
`kty`: the object with `kty = "foo"` passes validation. -/
theorem assertIsJwk_spec_counterexample :
    assertIsJwk (.obj [("kty", .str "foo")]) = .ok ()
    ∧ "foo" ∉ ["RSA", "EC", "OKP"] :=
  ⟨rfl, by decide⟩

/-- C7 (witness): the sample RSA JWK is an accepted object whose `kty`
and `kid` are strings, and adding an unknown field keeps it
accepted. -/
theorem assertIsJwk_spec_witness :
    isJsonObject jwkA = true
    ∧ fieldIsString jwkAFields "kty" = true
    ∧ fieldIsString jwkAFields "kid" = true
    ∧ assertIsJwk (.obj (jwkAFields ++ [("x5c", .arr [])])) = .ok () := by
  have h := assertIsJwk_spec jwkA jwkAFields "x5c" (.arr []) .jwkValidationError
  exact ⟨h.1 rfl, h.2.1 rfl, h.2.2.1 rfl "kid" (by decide) rfl,
    h.2.2.2.2.2 rfl (by decide) (by decide)⟩
